import Mathlib

/-!
Shallow embedding of the `sqlite-to-excel` conversion pipeline
(`src/constants.py`, `src/timestamp_converter.py`, `src/formatters.py`,
`src/database.py`, `src/utils.py`, `src/excel_writer.py`) and proofs of the
behavioural properties stated in the repository specification.

Modelling conventions:
* A pandas `DataFrame` is a list of named columns (`Col`), each holding the
  column's cell values top to bottom; a scalar cell is a `Value`
  (SQLite integer/real scalars are modelled as `Value.num`, text as
  `Value.str`, converted datetimes as `Value.dt`, `None`/`NaN`/`NaT` as
  `Value.null`).
* String operations are carried out on the character list underlying the
  string (`String.toList`), so every definition evaluates by `decide`.
* Database access and the filesystem are modelled by explicit environment
  data (`LookupState`, `Env`); exceptions are `Except`, and the orchestrator
  additionally returns the list of filesystem/database effects it performed,
  in order, so that "raises before any side effect" is a statement about
  that list.
-/

namespace SqliteToExcel

/-- Scalar cell value of a data frame: a numeric scalar, a text scalar, a
converted calendar date-time (carrying its epoch seconds), or a missing value
(`None` / `NaN` / `NaT`). -/
inductive Value where
  | num (n : Int)
  | str (s : String)
  | dt (n : Int)
  | null
deriving DecidableEq, Repr

/-- One named column of a data frame, with its cell values in row order. -/
structure Col where
  name : String
  values : List Value
deriving DecidableEq, Repr

/-- A data frame is its ordered list of named columns. -/
abbrev Frame := List Col

/-- Number of rows of a frame (`len(df)`): the length of its first column;
frames produced by `read_table` always have at least one column. -/
def rowCount (df : Frame) : Nat :=
  match df with
  | [] => 0
  | c :: _ => c.values.length

/-- A frame is well formed when all its columns have the same number of rows. -/
def wellformed (df : Frame) : Prop :=
  ∀ c ∈ df, c.values.length = rowCount df

instance (df : Frame) : Decidable (wellformed df) := by
  unfold wellformed; infer_instance

/-- Column names of a frame (`df.columns`). -/
def colNames (df : Frame) : List String := df.map Col.name

/- ===== constants.py ===== -/

def DB_FILE_EXTENSION : String := ".db"

def EXCEL_FILE_EXTENSION : String := ".xlsx"

def EXCEL_MAX_SHEET_NAME_LENGTH : Nat := 31

def UNIX_TIMESTAMP_MIN : Int := 946684800

def UNIX_TIMESTAMP_MAX : Int := 4102444800

def TIMESTAMP_KEYWORDS : List String := ["time", "timestamp", "date"]

def TIMESTAMP_READABLE_SUFFIX : String := "_readable"

def ROW_NUMBER_COLUMN_NAME : String := "Row"

def INVALID_FILENAME_CHARS : String := "<>:\"|?*"

def EXCEL_MAX_COLUMN_WIDTH : Nat := 50

def EXCEL_COLUMN_WIDTH_PADDING : Nat := 2

def EXCEL_HEADER_ROW_HEIGHT : Nat := 20

def EXCEL_HEADER_BG_COLOR : String := "4472C4"

def EXCEL_HEADER_FONT_COLOR : String := "FFFFFF"

def EXCEL_BORDER_COLOR : String := "D3D3D3"

def EXCEL_HEADER_FONT_SIZE : Nat := 11

def EXCEL_DATETIME_FORMAT : String := "YYYY-MM-DD HH:MM:SS"

/- ===== character-level string helpers =====
These replace the corresponding Python `str` operations so that every
definition reduces inside the kernel. -/

/-- Whether `p` is an initial segment of `s` (character lists). -/
def startsWithList : List Char → List Char → Bool
  | _, [] => true
  | [], _ :: _ => false
  | c :: cs, p :: ps => c = p && startsWithList cs ps

/-- Whether `p` occurs contiguously inside `s` (character lists);
Python's `p in s`. -/
def hasInfixList : List Char → List Char → Bool
  | [], p => p.isEmpty
  | s@(_ :: cs), p => startsWithList s p || hasInfixList cs p

/-- Python `needle in hay` on strings. -/
def strContains (hay needle : String) : Bool :=
  hasInfixList hay.toList needle.toList

/-- Python `s.lower()` (ASCII case folding, character by character). -/
def strLower (s : String) : String :=
  ⟨s.toList.map Char.toLower⟩

/-- Python `s.startswith(p)` on strings. -/
def strStartsWith (s p : String) : Bool :=
  startsWithList s.toList p.toList

/- ===== timestamp_converter.py ===== -/

/-- Whether a cell is missing (pandas treats `None`/`NaN`/`NaT` as na). -/
def Value.isNull : Value → Bool
  | .null => true
  | _ => false

/-- The model of `pd.api.types.is_numeric_dtype` for a column read from
SQLite: the dtype is numeric exactly when every cell is a numeric scalar or
missing (a single text cell forces dtype `object`, which is not numeric). -/
def is_numeric_dtype (vals : List Value) : Bool :=
  vals.all fun v =>
    match v with
    | .num _ => true
    | .null => true
    | _ => false

/-- The non-null values of a column (`series.dropna()`). -/
def dropna (vals : List Value) : List Value :=
  vals.filter fun v => !v.isNull

/-- One cell of `series.between(UNIX_TIMESTAMP_MIN, UNIX_TIMESTAMP_MAX)`
(inclusive on both ends, the pandas default). -/
def valueBetween (v : Value) : Bool :=
  match v with
  | .num n => decide (UNIX_TIMESTAMP_MIN ≤ n) && decide (n ≤ UNIX_TIMESTAMP_MAX)
  | _ => false

/-- Embedding of `is_unix_timestamp_column` (timestamp_converter.py,
lines 15-34): the name gate over `TIMESTAMP_KEYWORDS`, the numeric-dtype
check, the non-empty `dropna`, then the inclusive range check. -/
def is_unix_timestamp_column (c : Col) : Bool :=
  let name_lower := strLower c.name
  if !(TIMESTAMP_KEYWORDS.any fun keyword => strContains name_lower keyword) then
    false
  else if !is_numeric_dtype c.values then
    false
  else
    let non_null := dropna c.values
    if non_null.length = 0 then
      false
    else
      non_null.all valueBetween

/-- Bound (in epoch seconds) of the `datetime64[ns]` values representable by
pandas: `(2^63 - 1) / 10^9` rounded towards zero. -/
def PANDAS_DATETIME_BOUND_SEC : Int := 9223372036

/-- Model of one cell under `pd.to_datetime(series, unit='s',
errors='coerce')`: an in-bounds numeric scalar becomes a calendar date-time,
anything that fails to convert becomes missing (`NaT`), and missing stays
missing; coercion never raises. -/
def toDatetime (v : Value) : Value :=
  match v with
  | .num n =>
      if -PANDAS_DATETIME_BOUND_SEC ≤ n ∧ n ≤ PANDAS_DATETIME_BOUND_SEC then
        .dt n
      else
        .null
  | _ => .null

/-- The derived `_readable` column of a qualifying source column. -/
def mkReadable (c : Col) : Col :=
  { name := c.name ++ TIMESTAMP_READABLE_SUFFIX
    values := c.values.map toDatetime }

/-- The insertions collected by the first loop of
`convert_timestamps_to_readable` (timestamp_converter.py, lines 45-54), in
column order: for each qualifying column, the pair of its insertion position
`list(df.columns).index(col) + 1` and the new `_readable` column.
`new_columns` and `insert_positions` are dicts keyed by the readable name;
for a frame with duplicate column names `df[col]` is not even a Series and
those keys collide, so this embedding (like every theorem that uses it) is
read for frames whose column names are pairwise distinct. -/
def tsInserts (df : Frame) : List (Nat × Col) :=
  df.filterMap fun c =>
    if is_unix_timestamp_column c then
      some (List.indexOf c.name (colNames df) + 1, mkReadable c)
    else
      none

/-- Embedding of `convert_timestamps_to_readable` (timestamp_converter.py,
lines 37-61): collect the insertions, sort them by insertion position in
descending order (Python's stable `sorted(..., reverse=True)`), then perform
the `df.insert(position, name, values)` calls in that order. -/
def convert_timestamps_to_readable (df : Frame) : Frame :=
  ((tsInserts df).mergeSort fun a b => decide (b.1 ≤ a.1)).foldl
    (fun acc pc => acc.insertIdx pc.1 pc.2) df

/-- What `convert_timestamps_to_readable` does to a single column, as the
specification describes it: a qualifying column is followed by its derived
`_readable` sibling, any other column is left alone. -/
def expandCol (c : Col) : List Col :=
  if is_unix_timestamp_column c then [c, mkReadable c] else [c]

/- ===== formatters.py : add_row_numbers ===== -/

/-- Embedding of `add_row_numbers` (formatters.py, lines 23-28):
`df.insert(0, "Row", range(1, len(df) + 1))` prepends a leftmost column of
1-based sequence numbers. -/
def add_row_numbers (df : Frame) : Frame :=
  { name := ROW_NUMBER_COLUMN_NAME
    values := (List.range (rowCount df)).map fun k => Value.num (Int.ofNat k + 1) } :: df

/- ===== database.py : rename_data_format_columns ===== -/

/-- State of the auxiliary `data_format` lookup table as seen through the
database connection: absent from `sqlite_master`, present but raising on
`SELECT data_format_index, comment` (schema mismatch or any query error), or
present and well formed with its `(data_format_index, comment)` rows. -/
inductive LookupState where
  | absent
  | malformed
  | present (rows : List (Int × String))
deriving DecidableEq, Repr

/-- The `rename_map` built by `rename_data_format_columns` (database.py,
lines 102-107), looked up at one name: rows are scanned in order, a row
whose generated name `data_format_<index>` is one of the frame's columns is
recorded, and a later row with the same generated name overwrites an earlier
one (dict assignment). -/
def renameLookup (rows : List (Int × String)) (cols : List String)
    (n : String) : Option String :=
  rows.foldl
    (fun acc r =>
      if cols.contains ("data_format_" ++ toString r.1) &&
         n == "data_format_" ++ toString r.1 then
        some r.2
      else acc)
    none

/-- Embedding of `rename_data_format_columns` (database.py, lines 77-117):
if the lookup table is absent the frame is returned as is; any exception
while reading it is swallowed (`except Exception: pass`) and the frame is
returned as is; otherwise `df.rename(columns=rename_map)` renames exactly
the matching column names and touches nothing else. -/
def rename_data_format_columns (df : Frame) (lookup : LookupState) : Frame :=
  match lookup with
  | .absent => df
  | .malformed => df
  | .present rows =>
      df.map fun c =>
        match renameLookup rows (colNames df) c.name with
        | some label => { c with name := label }
        | none => c

/- ===== excel_writer.py : the per-table transform pipeline ===== -/

/-- The per-table body of the conversion loop (excel_writer.py,
lines 81-90): read result -> rename -> timestamp expansion -> row numbers. -/
def processTable (df : Frame) (lookup : LookupState) : Frame :=
  add_row_numbers (convert_timestamps_to_readable
    (rename_data_format_columns df lookup))

/-- Header row written by `df.to_excel(...)`: the column names in order. -/
def sheetHeader (df : Frame) : List String := colNames df

/-- Data rows written by `df.to_excel(...)`: one row per frame row, each one
the cells of every column at that row, in column order. -/
def sheetRows (df : Frame) : List (List Value) :=
  (List.range (rowCount df)).map fun k => df.map fun c => c.values.getD k Value.null

def tsWitnessFrame : Frame :=
  [{ name := "created_time", values := [Value.num 1000000000, Value.null] },
   { name := "id", values := [Value.num 5, Value.num 6] }]

/- ===== database.py : identifier validation, quoting, reading ===== -/

/-- One character of Python's regex class `\w` (ASCII plane): alphanumeric
or underscore. Non-ASCII word characters (which Python's Unicode `\w` also
accepts) are outside the scope of this embedding. -/
def isPyWordChar (ch : Char) : Bool :=
  ch.isAlphanum || ch = '_'

/-- One character of Python's regex class `\s` (ASCII plane): space, tab,
newline, carriage return, vertical tab, form feed, the file/group/record/
unit separators 0x1C-0x1F, and NEL 0x85. -/
def isPySpaceChar (ch : Char) : Bool :=
  ch = ' ' || ch = '\t' || ch = '\n' || ch = '\r' ||
  ch.toNat = 11 || ch.toNat = 12 || ch.toNat = 133 ||
  (decide (28 ≤ ch.toNat) && decide (ch.toNat ≤ 31))

inductive IdentErr where
  | emptyIdentifier
  | invalidChars
deriving DecidableEq, Repr

/-- Embedding of `_validate_sql_identifier` (database.py, lines 10-37): an
empty name is rejected, then the name must fully match `^[\w\s]+$` — every
character in `\w` or `\s` (`$` can only skip a trailing newline, which is in
`\s` anyway, so full match is exactly a per-character check). -/
def validate_sql_identifier (identifier : String) : Except IdentErr String :=
  if identifier = "" then
    .error .emptyIdentifier
  else if !(identifier.toList.all fun ch => isPyWordChar ch || isPySpaceChar ch) then
    .error .invalidChars
  else
    .ok identifier

/-- Embedding of `_quote_identifier` (database.py, lines 40-54):
`identifier.replace('"', '""')` doubles every double quote (written here
character by character) and the result is wrapped in double quotes. -/
def quote_identifier (identifier : String) : String :=
  ⟨'"' :: ((identifier.toList.flatMap fun ch =>
      if ch = '"' then ['"', '"'] else [ch]) ++ ['"'])⟩

/-- The source database: every row of `sqlite_master` with `type='table'`,
as a name paired with the table's contents. -/
abbrev Database := List (String × Frame)

/-- SQLite `name LIKE 'sqlite\x5f%'` (case-insensitive; `\x5f` matches any
single character, `%` any run), i.e. names of length at least 7 whose
lowercase form starts with "sqlite". -/
def matchesSqliteLike (n : String) : Bool :=
  decide (7 ≤ n.toList.length) && strStartsWith (strLower n) "sqlite"

/-- Embedding of `get_all_tables` (database.py, lines 57-74): the names of
all tables, excluding those matching the system-table pattern. -/
def get_all_tables (db : Database) : List String :=
  (db.map Prod.fst).filter fun n => !matchesSqliteLike n

inductive ReadErr where
  | invalidIdentifier (e : IdentErr)
  | tableNotFound
deriving DecidableEq, Repr

/-- Embedding of `read_table` (database.py, lines 120-155): validate the
table name; check existence against `sqlite_master` (parameterised, so the
raw name); only then build and run the quoted `SELECT *` query. The ok
result pairs the executed query text with the returned frame so the quoting
behaviour is observable; the error branches never build a query. -/
def read_table (db : Database) (table_name : String) :
    Except ReadErr (String × Frame) :=
  match validate_sql_identifier table_name with
  | .error e => .error (.invalidIdentifier e)
  | .ok validated_name =>
    match db.find? fun t => t.1 == validated_name with
    | none => .error .tableNotFound
    | some t => .ok ("SELECT * FROM " ++ quote_identifier validated_name, t.2)

/- ===== utils.py : strip, path pieces, output path ===== -/

/-- Python `str.strip()` on the underlying characters. -/
def stripChars (l : List Char) : List Char :=
  ((l.dropWhile isPySpaceChar).reverse.dropWhile isPySpaceChar).reverse

/-- Python `s.strip()`. -/
def pyStrip (s : String) : String :=
  ⟨stripChars s.toList⟩

/-- The components of a POSIX path as pathlib parses them: split on `/`,
dropping empty runs and `.` components (`..` is kept). -/
def pathComponents (s : String) : List (List Char) :=
  (s.toList.splitOn '/').filter fun comp =>
    !comp.isEmpty && !(comp == ['.'])

/-- Pathlib `PurePosixPath(s).name`: the last component, or empty when there is
none (root, `.`, empty). -/
def pathName (s : String) : List Char :=
  ((pathComponents s).getLast?).getD []

/-- pathlib's stem/suffix split of a final component: the extension starts
at the last dot only when that dot is neither the first nor the last
character; otherwise the suffix is empty. -/
def pathSplitExt (nm : List Char) : List Char × List Char :=
  let i := nm.length - 1 - List.indexOf '.' nm.reverse
  if ('.' ∈ nm) ∧ 0 < i ∧ i < nm.length - 1 then
    (nm.take i, nm.drop i)
  else
    (nm, [])

/-- Pathlib `Path(s).stem`. -/
def pathStem (s : String) : List Char :=
  (pathSplitExt (pathName s)).1

/-- Pathlib `Path(s).suffix`. -/
def pathSuffix (s : String) : String :=
  ⟨(pathSplitExt (pathName s)).2⟩

/-- Python `str(Path(dir) / filename)`: the normalised directory components, then
the file name, joined with `/`, with a leading `/` for an absolute dir. -/
def renderPath (dir : String) (filename : List Char) : String :=
  ⟨(if strStartsWith dir "/" then ['/'] else []) ++
    List.intercalate ['/'] (pathComponents dir ++ [filename])⟩

/-- Embedding of `validate_non_empty_string` (utils.py, lines 22-26):
`not value or not value.strip()` rejects, otherwise the stripped value is
returned. -/
def validate_non_empty_string (value : String) : Except String String :=
  if value = "" ∨ pyStrip value = "" then
    .error "cannot be empty"
  else
    .ok (pyStrip value)

/-- The sanitisation loop of `get_output_path` (utils.py, lines 83-84):
`base_name.replace(char, '_')` for each character of
`INVALID_FILENAME_CHARS` in turn. -/
def sanitizeBase (base : List Char) : List Char :=
  INVALID_FILENAME_CHARS.toList.foldl
    (fun b ch => b.map fun c => if c = ch then '_' else c) base

/-- Embedding of `get_output_path` (utils.py, lines 70-88): validate both
arguments, take the input file's stem, reject an empty stem, sanitise it,
and join the output directory with the stem plus the spreadsheet
extension. -/
def get_output_path (db_path : String) (output_dir : String) :
    Except String String :=
  match validate_non_empty_string db_path with
  | .error e => .error e
  | .ok dbp =>
    match validate_non_empty_string output_dir with
    | .error e => .error e
    | .ok outd =>
      let base_name := pathStem dbp
      if base_name = [] then
        .error "Could not extract filename"
      else
        .ok (renderPath outd (sanitizeBase base_name ++ EXCEL_FILE_EXTENSION.toList))

/- ===== excel_writer.py : the conversion orchestrator ===== -/

/-- Python `s[:n]`. -/
def strTake (s : String) (n : Nat) : String :=
  ⟨s.toList.take n⟩

/-- Filesystem/database side effects of a conversion run, in order:
creating the output directory, listing the tables, executing a table's
`SELECT *` query, and writing one worksheet. -/
inductive Effect where
  | mkdirOut
  | listTables
  | readTable (table : String)
  | writeSheet (sheetName : String) (header : List String)
      (rows : List (List Value))
deriving DecidableEq, Repr

inductive ConvErr where
  | emptyDbPath
  | dbNotFound
  | notAFile
  | emptyOutputPath
  | badExtension
  | mkdirFailed
  | noTables
  | readError (e : ReadErr)
deriving DecidableEq, Repr

/-- The environment a conversion run observes: the two path arguments, what
`Path.exists`/`Path.is_file` report for the input, whether creating the
output directory would succeed, the database's tables, and the state of the
`data_format` lookup table. -/
structure Env where
  db_path : String
  dbExists : Bool
  dbIsFile : Bool
  output_path : String
  mkdirOk : Bool
  db : Database
  lookup : LookupState

/-- The per-table loop of `convert_db_to_excel` (excel_writer.py,
lines 78-101): each table is read (`read_table`), transformed
(`processTable`) and written as one worksheet whose name is the table name
truncated to 31 characters; a failing read aborts the loop, keeping the
effects already performed. -/
def convertTables (db : Database) (lookup : LookupState) :
    List String → List Effect × Except ConvErr Unit
  | [] => ([], .ok ())
  | t :: rest =>
    match read_table db t with
    | .error e => ([], .error (.readError e))
    | .ok (_query, df) =>
      let processed := processTable df lookup
      let result := convertTables db lookup rest
      (Effect.readTable t ::
        Effect.writeSheet (strTake t EXCEL_MAX_SHEET_NAME_LENGTH)
          (sheetHeader processed) (sheetRows processed) :: result.1,
       result.2)

/-- Pathlib `Path(s).parent == Path('.')`: a relative path with at most one
component. -/
def outputParentIsCwd (s : String) : Bool :=
  !(strStartsWith s "/") && decide ((pathComponents s).length ≤ 1)

/-- Embedding of `convert_db_to_excel` (excel_writer.py, lines 17-103), as
the ordered list of filesystem/database effects performed plus the outcome.
The validations run in source order: database path empty, missing, not a
file (a wrong input extension is only a logged warning), output path empty,
output extension not `.xlsx` (checked twice in the source, so twice here),
then the output directory is created unless it is the working directory,
the tables are listed, an empty list is fatal, and the per-table loop
runs. -/
def convert_db_to_excel (env : Env) : List Effect × Except ConvErr Unit :=
  if env.db_path = "" ∨ pyStrip env.db_path = "" then
    ([], .error .emptyDbPath)
  else if !env.dbExists then
    ([], .error .dbNotFound)
  else if !env.dbIsFile then
    ([], .error .notAFile)
  else if env.output_path = "" ∨ pyStrip env.output_path = "" then
    ([], .error .emptyOutputPath)
  else if strLower (pathSuffix (pyStrip env.output_path)) ≠ EXCEL_FILE_EXTENSION then
    ([], .error .badExtension)
  else if strLower (pathSuffix (pyStrip env.output_path)) ≠ ".xlsx" then
    ([], .error .badExtension)
  else if !(outputParentIsCwd (pyStrip env.output_path)) && !env.mkdirOk then
    ([], .error .mkdirFailed)
  else if (get_all_tables env.db).isEmpty then
    ((if outputParentIsCwd (pyStrip env.output_path) then [] else [Effect.mkdirOut]) ++
      [Effect.listTables], .error .noTables)
  else
    ((if outputParentIsCwd (pyStrip env.output_path) then [] else [Effect.mkdirOut]) ++
      Effect.listTables ::
        (convertTables env.db env.lookup (get_all_tables env.db)).1,
     (convertTables env.db env.lookup (get_all_tables env.db)).2)

/- ===== formatters.py : format_worksheet ===== -/

structure FontStyle where
  bold : Bool
  color : String
  size : Nat
deriving DecidableEq, Repr

structure FillStyle where
  startColor : String
  endColor : String
  fillType : String
deriving DecidableEq, Repr

structure AlignStyle where
  horizontal : String
  vertical : String
deriving DecidableEq, Repr

structure BorderSide where
  style : String
  color : String
deriving DecidableEq, Repr

structure BorderStyle where
  left : BorderSide
  right : BorderSide
  top : BorderSide
  bottom : BorderSide
deriving DecidableEq, Repr

/-- One worksheet cell: its data value and the visual attributes
`format_worksheet` touches (openpyxl defaults modelled as `none`). -/
structure Cell where
  value : Value
  font : Option FontStyle
  fill : Option FillStyle
  alignment : Option AlignStyle
  border : Option BorderStyle
  numberFormat : Option String
deriving DecidableEq, Repr

/-- A worksheet as written by `df.to_excel` and styled by
`format_worksheet`: the cell grid in row-major order (row 1, the header,
first), the per-column widths, the freeze-panes anchor and the header row
height. -/
structure Worksheet where
  cells : List (List Cell)
  columnWidths : List Nat
  freezePanes : Option String
  headerRowHeight : Option Nat
deriving DecidableEq, Repr

def header_font : FontStyle :=
  { bold := true, color := EXCEL_HEADER_FONT_COLOR, size := EXCEL_HEADER_FONT_SIZE }

def header_fill : FillStyle :=
  { startColor := EXCEL_HEADER_BG_COLOR, endColor := EXCEL_HEADER_BG_COLOR
    fillType := "solid" }

def header_alignment : AlignStyle :=
  { horizontal := "center", vertical := "center" }

def cell_alignment : AlignStyle :=
  { horizontal := "left", vertical := "center" }

def thin_border : BorderStyle :=
  { left := { style := "thin", color := EXCEL_BORDER_COLOR }
    right := { style := "thin", color := EXCEL_BORDER_COLOR }
    top := { style := "thin", color := EXCEL_BORDER_COLOR }
    bottom := { style := "thin", color := EXCEL_BORDER_COLOR } }

/-- Model of `pd.api.types.is_datetime64_any_dtype` for a pipeline column: every
cell is a converted date-time or missing, with at least one date-time (an
all-`NaT` coerced column also has datetime dtype, but its missing cells are
not distinguishable from generic nulls in this value model; the guarded
assignment below skips missing cells either way). -/
def isDatetimeCol (c : Col) : Bool :=
  (c.values.all fun v =>
    match v with
    | .dt _ => true
    | .null => true
    | _ => false) &&
  (c.values.any fun v =>
    match v with
    | .dt _ => true
    | _ => false)

/-- Python `len(str(value))` for a cell (a converted date-time prints as
`YYYY-MM-DD HH:MM:SS`, 19 characters; missing cells are skipped by the
`is not None` guard before this is used). -/
def pyStrLen (v : Value) : Nat :=
  match v with
  | .num n => (toString n).length
  | .str s => s.toList.length
  | .dt _ => 19
  | .null => 0

/-- The column-width computation of `format_worksheet` (formatters.py,
lines 65-86): the header length, raised to the longest stringified
non-missing cell value. -/
def colMaxLen (c : Col) : Nat :=
  c.values.foldl
    (fun m v => if v.isNull then m else max m (pyStrLen v))
    c.name.toList.length

/-- What `format_worksheet` does to the cell in grid row `r` (0-based; row
0 is the header) and column `cidx`: header cells get the header font, fill,
alignment and border; data cells get the data alignment and border, and a
date-time number format exactly when the frame column has datetime dtype
and the frame value at that position is not missing (otherwise the existing
number format is left alone). The data value is never touched. -/
def formatCellAt (df : Frame) (r cidx : Nat) (cell : Cell) : Cell :=
  if r = 0 then
    { cell with
      font := some header_font
      fill := some header_fill
      alignment := some header_alignment
      border := some thin_border }
  else
    match df[cidx]? with
    | some col =>
      { cell with
        alignment := some cell_alignment
        border := some thin_border
        numberFormat :=
          if isDatetimeCol col && !(col.values.getD (r - 1) Value.null).isNull then
            some EXCEL_DATETIME_FORMAT
          else
            cell.numberFormat }
    | none =>
      { cell with
        alignment := some cell_alignment
        border := some thin_border }

def formatRowCells (df : Frame) (r : Nat) : Nat → List Cell → List Cell
  | _, [] => []
  | cidx, cell :: rest =>
    formatCellAt df r cidx cell :: formatRowCells df r (cidx + 1) rest

def formatGrid (df : Frame) : Nat → List (List Cell) → List (List Cell)
  | _, [] => []
  | r, row :: rest => formatRowCells df r 0 row :: formatGrid df (r + 1) rest

/-- Embedding of `format_worksheet` (formatters.py, lines 31-94): style the
header row and the data cells, set every column's width from the frame
(header length vs longest stringified value, plus padding, capped), freeze
the pane under the header, and set the header row height. -/
def format_worksheet (ws : Worksheet) (df : Frame) : Worksheet :=
  { cells := formatGrid df 0 ws.cells
    columnWidths := df.map fun c =>
      min (colMaxLen c + EXCEL_COLUMN_WIDTH_PADDING) EXCEL_MAX_COLUMN_WIDTH
    freezePanes := some "A2"
    headerRowHeight := some EXCEL_HEADER_ROW_HEIGHT }

/-- The data values of a worksheet's grid. -/
def cellValuesGrid (ws : Worksheet) : List (List Value) :=
  ws.cells.map fun row => row.map Cell.value

def c7Env : Env :=
  { db_path := "input/data.db", dbExists := true, dbIsFile := true
    output_path := "output/data.xls", mkdirOk := true
    db := [("t", [{ name := "a", values := [] }])], lookup := .absent }

/- ===== theorems: C9 ===== -/

def c9Env : Env :=
  { db_path := "input/data.db", dbExists := true, dbIsFile := true
    output_path := "output/data.xlsx", mkdirOk := true
    db := [("my-table", [{ name := "a", values := [Value.num 1] }])]
    lookup := .absent }

def c8Frame : Frame :=
  [{ name := "t_time", values := [Value.dt 1000000000] }]

def c8Sheet : Worksheet :=
  { cells :=
      [[{ value := Value.str "t_time", font := none, fill := none
          alignment := none, border := none, numberFormat := none }],
       [{ value := Value.dt 1000000000, font := none, fill := none
          alignment := none, border := none, numberFormat := none }]]
    columnWidths := [], freezePanes := none, headerRowHeight := none }

/- ===== theorems: C1 ===== -/

def readingsFrame : Frame :=
  [{ name := "id", values := [Value.num 1, Value.num 2, Value.num 3] },
   { name := "sampled_at",
     values := [Value.num 1600000000, Value.num 1700000000, Value.num 1800000000] },
   { name := "data_format_0", values := [Value.num 1, Value.num 2, Value.num 3] }]

def readingsLookup : LookupState := .present [(0, "Voltage")]

def renamedReadings : Frame :=
  [{ name := "id", values := [Value.num 1, Value.num 2, Value.num 3] },
   { name := "sampled_at",
     values := [Value.num 1600000000, Value.num 1700000000, Value.num 1800000000] },
   { name := "Voltage", values := [Value.num 1, Value.num 2, Value.num 3] }]

/- ===== generic list lemmas used by the timestamp-insertion proof ===== -/

theorem insertIdx_append_of_le {α : Type} (a : α) :
    ∀ (xs : List α) (p : Nat) (ys : List α), p ≤ xs.length →
      List.insertIdx p a (xs ++ ys) = List.insertIdx p a xs ++ ys := by
  intro xs
  induction xs with
  | nil =>
    intro p ys hp
    have : p = 0 := Nat.le_zero.mp hp
    subst this
    simp
  | cons x xs ih =>
    intro p ys hp
    cases p with
    | zero => simp
    | succ q =>
      simp only [List.cons_append, List.insertIdx_succ_cons]
      rw [ih q ys (Nat.succ_le_succ_iff.mp hp)]

theorem insertIdx_length_self {α : Type} (a : α) :
    ∀ (l : List α), List.insertIdx l.length a l = l ++ [a] := by
  intro l
  induction l with
  | nil => simp
  | cons x l ih => simp [List.insertIdx_succ_cons, ih]

theorem le_length_insertIdx {α : Type} (a : α) :
    ∀ (l : List α) (p : Nat), l.length ≤ (List.insertIdx p a l).length := by
  intro l
  induction l with
  | nil => intro p; cases p <;> simp
  | cons x l ih =>
    intro p
    cases p with
    | zero => simp
    | succ q =>
      simp only [List.insertIdx_succ_cons, List.length_cons]
      exact Nat.succ_le_succ (ih q)

theorem indexOf_append_of_mem {α : Type} [DecidableEq α] {a : α} :
    ∀ {l₁ : List α} (l₂ : List α), a ∈ l₁ →
      List.indexOf a (l₁ ++ l₂) = List.indexOf a l₁ := by
  intro l₁
  induction l₁ with
  | nil => intro l₂ h; simp at h
  | cons x l ih =>
    intro l₂ h
    by_cases hx : x = a
    · subst hx
      simp [List.indexOf_cons]
    · have ha : a ∈ l := by
        rcases List.mem_cons.mp h with h' | h'
        · exact absurd h'.symm hx
        · exact h'
      have hbeq : (x == a) = false := beq_false_of_ne hx
      simp [List.indexOf_cons, hbeq, ih l₂ ha]

theorem indexOf_append_of_notMem {α : Type} [DecidableEq α] {a : α} :
    ∀ {l₁ : List α} (l₂ : List α), a ∉ l₁ →
      List.indexOf a (l₁ ++ l₂) = l₁.length + List.indexOf a l₂ := by
  intro l₁
  induction l₁ with
  | nil => intro l₂ _; simp
  | cons x l ih =>
    intro l₂ h
    have hx : x ≠ a := fun hxa => h (hxa ▸ List.mem_cons_self x l)
    have ha : a ∉ l := fun hal => h (List.mem_cons_of_mem x hal)
    have hbeq : (x == a) = false := beq_false_of_ne hx
    simp [List.indexOf_cons, hbeq, ih l₂ ha, Nat.succ_add]

/-- Two lists of (key, payload) pairs that are permutations of one another
and both strictly descending in the key are equal. -/
theorem eq_of_perm_of_pairwise_gt {α : Type} :
    ∀ {l₁ l₂ : List (Nat × α)}, l₁.Perm l₂ →
      l₁.Pairwise (fun a b => b.1 < a.1) →
      l₂.Pairwise (fun a b => b.1 < a.1) → l₁ = l₂ := by
  intro l₁
  induction l₁ with
  | nil =>
    intro l₂ hp _ _
    exact (hp.symm.eq_nil).symm
  | cons a l₁' ih =>
    intro l₂ hp h1 h2
    cases l₂ with
    | nil => exact absurd hp.eq_nil (by simp)
    | cons b l₂' =>
      have hab : a = b := by
        by_contra hne
        have hbmem : b ∈ a :: l₁' := hp.mem_iff.mpr (List.mem_cons_self b l₂')
        have hamem : a ∈ b :: l₂' := hp.mem_iff.mp (List.mem_cons_self a l₁')
        have hb : b ∈ l₁' := by
          rcases List.mem_cons.mp hbmem with h' | h'
          · exact absurd h'.symm hne
          · exact h'
        have ha : a ∈ l₂' := by
          rcases List.mem_cons.mp hamem with h' | h'
          · exact absurd h' hne
          · exact h'
        have hba : b.1 < a.1 := (List.pairwise_cons.mp h1).1 b hb
        have hab' : a.1 < b.1 := (List.pairwise_cons.mp h2).1 a ha
        exact absurd (Nat.lt_trans hba hab') (Nat.lt_irrefl _)
      subst hab
      rw [ih hp.cons_inv (List.pairwise_cons.mp h1).2 (List.pairwise_cons.mp h2).2]

/-- A stable descending sort of a list whose keys are strictly increasing
just reverses the list. -/
theorem mergeSort_desc_eq_reverse {α : Type} (l : List (Nat × α))
    (h : l.Pairwise fun a b => a.1 < b.1) :
    l.mergeSort (fun a b => decide (b.1 ≤ a.1)) = l.reverse := by
  have hperm : (l.mergeSort fun a b => decide (b.1 ≤ a.1)).Perm l.reverse :=
    (List.mergeSort_perm l _).trans (List.reverse_perm l).symm
  have hsorted :
      (l.mergeSort fun a b => decide (b.1 ≤ a.1)).Pairwise
        (fun a b => (decide (b.1 ≤ a.1)) = true) := by
    refine List.sorted_mergeSort ?_ ?_ l
    · intro a b c hab hbc
      exact decide_eq_true (Nat.le_trans (of_decide_eq_true hbc) (of_decide_eq_true hab))
    · intro a b
      rcases Nat.le_total b.1 a.1 with h' | h'
      · simp [h']
      · simp [h']
  have hfst : (l.map Prod.fst).Nodup :=
    List.pairwise_map.mpr (h.imp fun hab => Nat.ne_of_lt hab)
  have hfst2 : ((l.mergeSort fun a b => decide (b.1 ≤ a.1)).map Prod.fst).Nodup :=
    hfst.perm ((List.mergeSort_perm l _).map Prod.fst).symm
  have hne : (l.mergeSort fun a b => decide (b.1 ≤ a.1)).Pairwise
      (fun a b => a.1 ≠ b.1) := List.pairwise_map.mp hfst2
  have hstrict : (l.mergeSort fun a b => decide (b.1 ≤ a.1)).Pairwise
      (fun a b => b.1 < a.1) :=
    (hsorted.and hne).imp fun hx =>
      Nat.lt_of_le_of_ne (of_decide_eq_true hx.1) (Ne.symm hx.2)
  have hrev : l.reverse.Pairwise (fun a b => b.1 < a.1) :=
    List.pairwise_reverse.mpr (h.imp fun hab => hab)
  exact eq_of_perm_of_pairwise_gt hperm hstrict hrev

/- ===== structure of the timestamp insertions ===== -/

theorem tsInserts_pos_bounds (df : Frame) :
    ∀ pc ∈ tsInserts df, 1 ≤ pc.1 ∧ pc.1 ≤ df.length := by
  intro pc hpc
  rcases List.mem_filterMap.mp hpc with ⟨d, hd, hf⟩
  by_cases hq : is_unix_timestamp_column d
  · rw [if_pos hq] at hf
    have hpc1 : pc.1 = List.indexOf d.name (colNames df) + 1 := by
      rw [← Option.some_inj.mp hf]
    have hmem : d.name ∈ colNames df := List.mem_map.mpr ⟨d, hd, rfl⟩
    have hlt : List.indexOf d.name (colNames df) < (colNames df).length :=
      List.indexOf_lt_length.mpr hmem
    have hlen : (colNames df).length = df.length := List.length_map _ _
    constructor
    · omega
    · omega
  · rw [if_neg hq] at hf
    exact absurd hf (by simp)

theorem tsInserts_append_singleton (xs : Frame) (c : Col)
    (h : (colNames (xs ++ [c])).Nodup) :
    tsInserts (xs ++ [c]) =
      tsInserts xs ++
        (if is_unix_timestamp_column c then [(xs.length + 1, mkReadable c)]
         else []) := by
  have hcn : colNames (xs ++ [c]) = colNames xs ++ [c.name] := by
    simp [colNames]
  have hnm : c.name ∉ colNames xs := by
    rw [hcn] at h
    rcases List.nodup_append.mp h with ⟨-, -, hdisj⟩
    exact fun hmem => hdisj hmem (List.mem_singleton.mpr rfl)
  unfold tsInserts
  rw [List.filterMap_append]
  congr 1
  · refine List.filterMap_congr fun d hd => ?_
    by_cases hq : is_unix_timestamp_column d
    · have hdmem : d.name ∈ colNames xs := List.mem_map.mpr ⟨d, hd, rfl⟩
      rw [if_pos hq, if_pos hq, hcn, indexOf_append_of_mem _ hdmem]
    · rw [if_neg hq, if_neg hq]
  · by_cases hq : is_unix_timestamp_column c
    · have hlen : (colNames xs).length = xs.length := List.length_map _ _
      simp only [List.filterMap, if_pos hq, hcn,
        indexOf_append_of_notMem _ hnm]
      simp [List.indexOf_cons, hlen]
    · simp [List.filterMap, if_neg hq]

theorem tsInserts_pairwise_lt (df : Frame) :
    (colNames df).Nodup → (tsInserts df).Pairwise fun a b => a.1 < b.1 := by
  induction df using List.reverseRecOn with
  | nil => intro _; simp [tsInserts]
  | append_singleton xs c ih =>
    intro h
    have hcn : colNames (xs ++ [c]) = colNames xs ++ [c.name] := by
      simp [colNames]
    have hxs : (colNames xs).Nodup := List.Nodup.of_append_left (hcn ▸ h)
    rw [tsInserts_append_singleton xs c h]
    refine List.pairwise_append.mpr ⟨ih hxs, ?_, ?_⟩
    · by_cases hq : is_unix_timestamp_column c <;> simp [hq]
    · intro p hp q hqmem
      have hple := (tsInserts_pos_bounds xs p hp).2
      by_cases hq : is_unix_timestamp_column c
      · rw [if_pos hq] at hqmem
        have : q = (xs.length + 1, mkReadable c) := List.mem_singleton.mp hqmem
        rw [this]
        omega
      · rw [if_neg hq] at hqmem
        exact absurd hqmem (by simp)

theorem le_length_foldr_insertIdx {α : Type} (l : List α) :
    ∀ (ps : List (Nat × α)),
      l.length ≤ (ps.foldr (fun pc acc => List.insertIdx pc.1 pc.2 acc) l).length := by
  intro ps
  induction ps with
  | nil => exact Nat.le_refl _
  | cons pc rest ih =>
    exact Nat.le_trans ih (le_length_insertIdx _ _ _)

theorem foldr_insertIdx_append {α : Type} (xs s : List α) :
    ∀ (ps : List (Nat × α)), (∀ pc ∈ ps, pc.1 ≤ xs.length) →
      ps.foldr (fun pc acc => List.insertIdx pc.1 pc.2 acc) (xs ++ s) =
        ps.foldr (fun pc acc => List.insertIdx pc.1 pc.2 acc) xs ++ s := by
  intro ps
  induction ps with
  | nil => intro _; rfl
  | cons pc rest ih =>
    intro hps
    have hrest : ∀ p ∈ rest, p.1 ≤ xs.length :=
      fun p hp => hps p (List.mem_cons_of_mem pc hp)
    simp only [List.foldr_cons, ih hrest]
    exact insertIdx_append_of_le pc.2 _ pc.1 s
      (Nat.le_trans (hps pc (List.mem_cons_self pc rest)) (le_length_foldr_insertIdx xs rest))

theorem foldr_tsInserts_eq (df : Frame) :
    (colNames df).Nodup →
      (tsInserts df).foldr (fun pc acc => List.insertIdx pc.1 pc.2 acc) df =
        df.flatMap expandCol := by
  induction df using List.reverseRecOn with
  | nil => intro _; simp [tsInserts]
  | append_singleton xs c ih =>
    intro h
    have hcn : colNames (xs ++ [c]) = colNames xs ++ [c.name] := by
      simp [colNames]
    have hxs : (colNames xs).Nodup := List.Nodup.of_append_left (hcn ▸ h)
    rw [tsInserts_append_singleton xs c h, List.foldr_append]
    have hbounds : ∀ pc ∈ tsInserts xs, pc.1 ≤ xs.length :=
      fun pc hpc => (tsInserts_pos_bounds xs pc hpc).2
    by_cases hq : is_unix_timestamp_column c
    · have hinner :
          (if is_unix_timestamp_column c then [(xs.length + 1, mkReadable c)]
           else []).foldr (fun pc acc => List.insertIdx pc.1 pc.2 acc) (xs ++ [c]) =
            xs ++ [c, mkReadable c] := by
        rw [if_pos hq]
        have hlen : xs.length + 1 = (xs ++ [c]).length := by simp
        simp only [List.foldr_cons, List.foldr_nil, hlen,
          insertIdx_length_self]
        simp
      rw [hinner, foldr_insertIdx_append xs [c, mkReadable c] _ hbounds,
        ih hxs, List.flatMap_append, List.flatMap_singleton, expandCol, if_pos hq]
    · have hinner :
          (if is_unix_timestamp_column c then [(xs.length + 1, mkReadable c)]
           else []).foldr (fun pc acc => List.insertIdx pc.1 pc.2 acc) (xs ++ [c]) =
            xs ++ [c] := by
        rw [if_neg hq]
        rfl
      rw [hinner, foldr_insertIdx_append xs [c] _ hbounds,
        ih hxs, List.flatMap_append, List.flatMap_singleton, expandCol, if_neg hq]

/-- For a frame with pairwise-distinct column names,
`convert_timestamps_to_readable` is exactly the columnwise expansion: each
qualifying column is immediately followed by its `_readable` sibling, and
everything else is untouched. -/
theorem convert_timestamps_eq_flatMap (df : Frame)
    (h : (colNames df).Nodup) :
    convert_timestamps_to_readable df = df.flatMap expandCol := by
  unfold convert_timestamps_to_readable
  rw [mergeSort_desc_eq_reverse _ (tsInserts_pairwise_lt df h), List.foldl_reverse]
  exact foldr_tsInserts_eq df h

/- ===== row-count preservation lemmas ===== -/

theorem rowCount_rename (df : Frame) (lookup : LookupState) :
    rowCount (rename_data_format_columns df lookup) = rowCount df := by
  cases lookup with
  | absent => rfl
  | malformed => rfl
  | present rows =>
    cases df with
    | nil => rfl
    | cons c rest =>
      simp only [rename_data_format_columns, List.map_cons, rowCount]
      cases renameLookup rows (colNames (c :: rest)) c.name <;> rfl

theorem rowCount_foldl_insertIdx :
    ∀ (ps : List (Nat × Col)) (df : Frame), (∀ pc ∈ ps, 1 ≤ pc.1) →
      rowCount (ps.foldl (fun acc pc => List.insertIdx pc.1 pc.2 acc) df) =
        rowCount df := by
  intro ps
  induction ps with
  | nil => intro df _; rfl
  | cons pc rest ih =>
    intro df hps
    have h1 : 1 ≤ pc.1 := hps pc (List.mem_cons_self pc rest)
    have hstep : rowCount (List.insertIdx pc.1 pc.2 df) = rowCount df := by
      cases df with
      | nil =>
        rcases Nat.exists_eq_add_of_le h1 with ⟨q, hq⟩
        rw [hq, Nat.add_comm]
        rfl
      | cons c rest' =>
        rcases Nat.exists_eq_add_of_le h1 with ⟨q, hq⟩
        rw [hq, Nat.add_comm, List.insertIdx_succ_cons]
        rfl
    rw [List.foldl_cons, ih _ (fun p hp => hps p (List.mem_cons_of_mem pc hp)), hstep]

theorem rowCount_convert_timestamps (df : Frame) :
    rowCount (convert_timestamps_to_readable df) = rowCount df := by
  unfold convert_timestamps_to_readable
  refine rowCount_foldl_insertIdx _ df fun pc hpc => ?_
  have hmem : pc ∈ tsInserts df :=
    ((List.mergeSort_perm (tsInserts df) _).mem_iff).mp hpc
  exact (tsInserts_pos_bounds df pc hmem).1

theorem rowCount_add_row_numbers (df : Frame) :
    rowCount (add_row_numbers df) = rowCount df := by
  have h : rowCount (add_row_numbers df) =
      ((List.range (rowCount df)).map fun k => Value.num (Int.ofNat k + 1)).length := rfl
  rw [h, List.length_map, List.length_range]

theorem rowCount_processTable (df : Frame) (lookup : LookupState) :
    rowCount (processTable df lookup) = rowCount df := by
  unfold processTable
  rw [rowCount_add_row_numbers, rowCount_convert_timestamps, rowCount_rename]

/- ===== theorems: C3 ===== -/

/-- C3. For every frame with pairwise-distinct column names,
`convert_timestamps_to_readable` expands each column that passes both
timestamp gates into the column itself immediately followed by exactly one
new column named `<original>_readable` whose cells are the epoch-seconds
values converted to calendar date-times (cells that fail conversion become
null, and conversion never raises); every non-qualifying column, and the
cell values of every original column, are untouched, and the adjacency holds
after all insertions even when several columns qualify. -/
theorem convert_timestamps_to_readable_spec (df : Frame)
    (h : (colNames df).Nodup) :
    convert_timestamps_to_readable df =
      df.flatMap fun c =>
        if is_unix_timestamp_column c then
          [c, { name := c.name ++ "_readable", values := c.values.map toDatetime }]
        else [c] := by
  rw [convert_timestamps_eq_flatMap df h]
  rfl

/-- Witness for C3 at a concrete frame: one qualifying and one
non-qualifying column. -/
theorem convert_timestamps_to_readable_spec_witness :
    convert_timestamps_to_readable tsWitnessFrame =
      [{ name := "created_time", values := [Value.num 1000000000, Value.null] },
       { name := "created_time_readable",
         values := [Value.dt 1000000000, Value.null] },
       { name := "id", values := [Value.num 5, Value.num 6] }] :=
  (convert_timestamps_to_readable_spec tsWitnessFrame (by decide)).trans (by decide)

/- ===== theorems: C5 ===== -/

/-- C5. For every frame with `N` rows, `add_row_numbers` prepends a new
leftmost column named "Row" reading `1, 2, ..., N` in the rows' current
order while leaving the rest of the frame untouched; and in the full
per-table pipeline, which applies it once after renaming and timestamp
expansion (neither of which reorders or filters rows), the first column of
the processed frame is that same "Row" column for `N` the source row
count. -/
theorem add_row_numbers_spec (df : Frame) (lookup : LookupState) :
    (add_row_numbers df).head? =
        some { name := "Row"
               values := (List.range (rowCount df)).map fun k => Value.num (Int.ofNat k + 1) } ∧
      (add_row_numbers df).tail = df ∧
      (processTable df lookup).head? =
        some { name := "Row"
               values := (List.range (rowCount df)).map fun k => Value.num (Int.ofNat k + 1) } := by
  refine ⟨rfl, rfl, ?_⟩
  unfold processTable add_row_numbers
  rw [rowCount_convert_timestamps, rowCount_rename]
  rfl

/- ===== theorems: C4 ===== -/

theorem foldl_renameStep_const (cols : List String) (n : String) :
    ∀ (rows : List (Int × String)) (acc : Option String),
      (∀ r ∈ rows, (n == "data_format_" ++ toString r.1) = false) →
      rows.foldl
        (fun acc r =>
          if cols.contains ("data_format_" ++ toString r.1) &&
             n == "data_format_" ++ toString r.1 then
            some r.2
          else acc)
        acc = acc := by
  intro rows
  induction rows with
  | nil => intro acc _; rfl
  | cons r rest ih =>
    intro acc h
    have hr := h r (List.mem_cons_self r rest)
    rw [List.foldl_cons]
    have hcond :
        (cols.contains ("data_format_" ++ toString r.1) &&
          n == "data_format_" ++ toString r.1) = false := by
      rw [hr, Bool.and_false]
    rw [hcond]
    simp only [Bool.false_eq_true, if_false]
    exact ih acc fun r' hr' => h r' (List.mem_cons_of_mem r hr')

/-- With pairwise-distinct generated `data_format_<index>` names, the built
`rename_map` (last row wins) agrees with the first matching row. -/
theorem renameLookup_eq_find (cols : List String) (n : String) (hn : n ∈ cols) :
    ∀ (rows : List (Int × String)),
      ((rows.map fun r => "data_format_" ++ toString r.1).Nodup) →
      renameLookup rows cols n =
        (rows.find? fun r => n == "data_format_" ++ toString r.1).map Prod.snd := by
  intro rows
  induction rows with
  | nil => intro _; rfl
  | cons r rest ih =>
    intro hnd
    have hnd2 :
        (("data_format_" ++ toString r.1) ::
          rest.map fun r' => "data_format_" ++ toString r'.1).Nodup := by
      rw [List.map_cons] at hnd
      exact hnd
    have hnd' := List.nodup_cons.mp hnd2
    by_cases hm : n = "data_format_" ++ toString r.1
    · have hbeq : (n == "data_format_" ++ toString r.1) = true := beq_iff_eq.mpr hm
      have hcontains : cols.contains ("data_format_" ++ toString r.1) = true := by
        rw [← hm]
        exact List.elem_iff.mpr hn
      have hrest : ∀ r' ∈ rest, (n == "data_format_" ++ toString r'.1) = false := by
        intro r' hr'
        refine beq_eq_false_iff_ne.mpr fun heq => ?_
        apply hnd'.1
        rw [← hm, heq]
        exact List.mem_map.mpr ⟨r', hr', rfl⟩
      unfold renameLookup
      rw [List.foldl_cons, hcontains, hbeq]
      simp only [Bool.and_self, if_true]
      rw [foldl_renameStep_const cols n rest (some r.2) hrest,
        List.find?_cons_of_pos rest hbeq]
      rfl
    · have hbeq : (n == "data_format_" ++ toString r.1) = false :=
        beq_eq_false_iff_ne.mpr hm
      unfold renameLookup
      rw [List.foldl_cons]
      have hcond :
          (cols.contains ("data_format_" ++ toString r.1) &&
            n == "data_format_" ++ toString r.1) = false := by
        rw [hbeq, Bool.and_false]
      rw [hcond]
      simp only [Bool.false_eq_true, if_false]
      rw [List.find?_cons_of_neg rest (by simp [hbeq])]
      exact ih hnd'.2

/-- C4. `rename_data_format_columns` never raises, for every frame and every
state of the `data_format` lookup table: when the lookup table is absent, or
reading it fails in any way, the frame is returned with all columns and
values exactly as given; when it is readable (and its generated
`data_format_<index>` names are pairwise distinct), each column literally
named `data_format_<N>` that has a matching lookup row is renamed to that
row's label, and every other column — and every cell value — is unchanged. -/
theorem rename_data_format_columns_spec (df : Frame)
    (rows : List (Int × String))
    (hrows : (rows.map fun r => "data_format_" ++ toString r.1).Nodup) :
    rename_data_format_columns df LookupState.absent = df ∧
    rename_data_format_columns df LookupState.malformed = df ∧
    rename_data_format_columns df (LookupState.present rows) =
      df.map fun c =>
        match rows.find? fun r => c.name == "data_format_" ++ toString r.1 with
        | some r => { name := r.2, values := c.values }
        | none => c := by
  refine ⟨rfl, rfl, ?_⟩
  show df.map _ = df.map _
  refine List.map_congr_left fun c hc => ?_
  have hn : c.name ∈ colNames df := List.mem_map.mpr ⟨c, hc, rfl⟩
  rw [renameLookup_eq_find (colNames df) c.name hn rows hrows]
  cases rows.find? fun r => c.name == "data_format_" ++ toString r.1 with
  | none => rfl
  | some r => rfl

/-- Witness for C4 at the specification's own example: lookup rows
(0, "Pressure") and (1, "Flow"); `data_format_0` is renamed, `data_format_2`
(no matching row) is unchanged, and an absent lookup table changes
nothing. -/
theorem rename_data_format_columns_spec_witness :
    rename_data_format_columns
        [{ name := "data_format_0", values := [Value.num 1] },
         { name := "data_format_2", values := [Value.num 2] }]
        (LookupState.present [(0, "Pressure"), (1, "Flow")]) =
      [{ name := "Pressure", values := [Value.num 1] },
       { name := "data_format_2", values := [Value.num 2] }] ∧
    rename_data_format_columns
        [{ name := "data_format_0", values := [Value.num 1] }]
        LookupState.absent =
      [{ name := "data_format_0", values := [Value.num 1] }] :=
  ⟨((rename_data_format_columns_spec
      [{ name := "data_format_0", values := [Value.num 1] },
       { name := "data_format_2", values := [Value.num 2] }]
      [(0, "Pressure"), (1, "Flow")] (by decide)).2.2).trans (by decide),
   (rename_data_format_columns_spec
      [{ name := "data_format_0", values := [Value.num 1] }]
      [] (by decide)).1⟩

/- ===== theorems: C2 ===== -/

/-- The cascade of early-return `if`s of `is_unix_timestamp_column`,
flattened into one boolean conjunction. -/
theorem is_unix_timestamp_column_eq (c : Col) :
    is_unix_timestamp_column c =
      ((TIMESTAMP_KEYWORDS.any fun keyword =>
          strContains (strLower c.name) keyword) &&
       is_numeric_dtype c.values &&
       !(dropna c.values).isEmpty &&
       (dropna c.values).all valueBetween) := by
  unfold is_unix_timestamp_column
  by_cases h1 : (TIMESTAMP_KEYWORDS.any fun keyword =>
      strContains (strLower c.name) keyword) = true
  · by_cases h2 : is_numeric_dtype c.values = true
    · by_cases h3 : (dropna c.values).length = 0
      · have h3' : dropna c.values = [] := List.length_eq_zero.mp h3
        simp [h1, h2, h3, h3']
      · have h3' : dropna c.values ≠ [] := fun h => h3 (by simp [h])
        simp [h1, h2, h3, h3']
    · simp [h1, h2]
  · simp [h1]

/-- C2. `is_unix_timestamp_column` returns true iff both gates hold: the
lowercased column name contains "time", "timestamp" or "date" as a
substring; and the column has at least one non-null value, every non-null
value is a numeric scalar, and every numeric value lies in the inclusive
range [946684800, 4102444800]. In particular an empty or all-null column
fails (the existential conjunct), and a single non-numeric value among
otherwise valid timestamps fails (the all-numeric conjunct). -/
theorem is_unix_timestamp_column_iff (c : Col) :
    is_unix_timestamp_column c = true ↔
      ((strContains (strLower c.name) "time" = true ∨
        strContains (strLower c.name) "timestamp" = true ∨
        strContains (strLower c.name) "date" = true) ∧
       (∃ v ∈ c.values, v ≠ Value.null) ∧
       (∀ v ∈ c.values, v ≠ Value.null → ∃ n : Int, v = Value.num n) ∧
       (∀ n : Int, Value.num n ∈ c.values →
          UNIX_TIMESTAMP_MIN ≤ n ∧ n ≤ UNIX_TIMESTAMP_MAX)) := by
  rw [is_unix_timestamp_column_eq]
  simp only [Bool.and_eq_true, Bool.not_eq_true', List.isEmpty_eq_false,
    List.any_eq_true, List.all_eq_true]
  constructor
  · rintro ⟨⟨⟨hname, hdtype⟩, hne⟩, hall⟩
    refine ⟨?_, ?_, ?_, ?_⟩
    · simpa [TIMESTAMP_KEYWORDS, or_assoc] using hname
    · rcases List.exists_mem_of_ne_nil _ hne with ⟨v, hv⟩
      have hv' := List.of_mem_filter hv
      exact ⟨v, List.mem_of_mem_filter hv, by
        cases v <;> simp_all [Value.isNull]⟩
    · intro v hv hvnull
      have := List.all_eq_true.mp hdtype v hv
      cases v with
      | num n => exact ⟨n, rfl⟩
      | str s => simp at this
      | dt n => simp at this
      | null => exact absurd rfl hvnull
    · intro n hn
      have hmem : Value.num n ∈ dropna c.values :=
        List.mem_filter.mpr ⟨hn, by simp [Value.isNull]⟩
      have := hall _ hmem
      simpa [valueBetween] using this
  · rintro ⟨hname, ⟨v₀, hv₀, hv₀null⟩, hnum, hrange⟩
    have hv₀mem : v₀ ∈ dropna c.values := by
      refine List.mem_filter.mpr ⟨hv₀, ?_⟩
      cases v₀ <;> simp_all [Value.isNull]
    refine ⟨⟨⟨?_, ?_⟩, ?_⟩, ?_⟩
    · simpa [TIMESTAMP_KEYWORDS, or_assoc] using hname
    · refine List.all_eq_true.mpr fun v hv => ?_
      by_cases h0 : v = Value.null
      · simp [h0]
      · rcases hnum v hv h0 with ⟨n, rfl⟩; simp
    · exact List.ne_nil_of_mem hv₀mem
    · intro v hv
      have hvmem := List.mem_of_mem_filter hv
      have hvnn := List.of_mem_filter hv
      have hvnull : v ≠ Value.null := by
        cases v <;> simp_all [Value.isNull]
      rcases hnum v hvmem hvnull with ⟨n, rfl⟩
      have := hrange n hvmem
      simp [valueBetween, this.1, this.2]

/- ===== theorems: C6 ===== -/

theorem flatMap_quote_of_no_quote :
    ∀ (l : List Char), (∀ ch ∈ l, ch ≠ '"') →
      (l.flatMap fun ch => if ch = '"' then ['"', '"'] else [ch]) = l := by
  intro l
  induction l with
  | nil => intro _; rfl
  | cons c cs ih =>
    intro h
    have hc : c ≠ '"' := h c (List.mem_cons_self c cs)
    simp only [List.flatMap_cons, if_neg hc]
    rw [ih fun ch hch => h ch (List.mem_cons_of_mem c hch)]
    rfl

theorem find?_fst_nodup (name : String) (fr : Frame) :
    ∀ (db : Database), (db.map Prod.fst).Nodup → (name, fr) ∈ db →
      db.find? (fun t => t.1 == name) = some (name, fr) := by
  intro db
  induction db with
  | nil => intro _ hmem; simp at hmem
  | cons t rest ih =>
    intro hnd hmem
    have hnd2 : (t.1 :: rest.map Prod.fst).Nodup := by
      rw [List.map_cons] at hnd
      exact hnd
    have hnd' := List.nodup_cons.mp hnd2
    by_cases hbeq : (t.1 == name) = true
    · have ht1 : t.1 = name := beq_iff_eq.mp hbeq
      have ht : t = (name, fr) := by
        rcases List.mem_cons.mp hmem with h | h
        · exact h.symm
        · exfalso
          apply hnd'.1
          rw [ht1]
          exact List.mem_map.mpr ⟨(name, fr), h, rfl⟩
      rw [List.find?_cons_of_pos rest hbeq, ht]
    · have hmem' : (name, fr) ∈ rest := by
        rcases List.mem_cons.mp hmem with h | h
        · exact absurd (beq_iff_eq.mpr (by rw [← h])) hbeq
        · exact h
      rw [List.find?_cons_of_neg rest hbeq]
      exact ih hnd'.2 hmem'

theorem read_table_eq_find (db : Database) (name : String)
    (h : validate_sql_identifier name = .ok name) :
    read_table db name =
      match db.find? fun t => t.1 == name with
      | none => .error .tableNotFound
      | some t => .ok ("SELECT * FROM " ++ quote_identifier name, t.2) := by
  unfold read_table
  rw [h]

theorem validate_ok_of_isOk (name : String)
    (h : (validate_sql_identifier name).isOk = true) :
    validate_sql_identifier name = .ok name ∧ name ≠ "" ∧
      ∀ ch ∈ name.toList, (isPyWordChar ch || isPySpaceChar ch) = true := by
  unfold validate_sql_identifier at h ⊢
  by_cases hne : name = ""
  · rw [if_pos hne] at h
    simp [Except.isOk, Except.toBool] at h
  · rw [if_neg hne] at h ⊢
    by_cases hall : (name.toList.all fun ch => isPyWordChar ch || isPySpaceChar ch) = true
    · rw [hall] at h ⊢
      exact ⟨by simp, hne, List.all_eq_true.mp hall⟩
    · have : (name.toList.all fun ch => isPyWordChar ch || isPySpaceChar ch) = false :=
        Bool.eq_false_iff.mpr hall
      rw [this] at h
      simp [Except.isOk, Except.toBool] at h

/-- C6 (amended). For every table name: a name containing a character
outside Python's word characters (letters, digits, underscore) and
whitespace characters (space, tab, and the other `\s` characters) makes
`read_table` raise the data-validation error; a name passing validation but
absent from the schema yields the not-found error, whose branch builds no
query at all (the query text exists only in the ok branch, so not-found is
raised before any table query is executed); and a name passing both checks
is embedded in the executed query wrapped in double quotes with every
embedded double quote doubled — and since validated names cannot contain a
double quote, the quoted form is exactly the name wrapped in quotes. -/
theorem read_table_spec (db : Database) (name : String) :
    ((∃ ch ∈ name.toList, (isPyWordChar ch || isPySpaceChar ch) = false) →
        read_table db name =
          Except.error (ReadErr.invalidIdentifier IdentErr.invalidChars)) ∧
    ((validate_sql_identifier name).isOk = true → name ∉ db.map Prod.fst →
        read_table db name = Except.error ReadErr.tableNotFound) ∧
    ((validate_sql_identifier name).isOk = true →
        (quote_identifier name).toList = '"' :: (name.toList ++ ['"']) ∧
        ∀ fr, (db.map Prod.fst).Nodup → (name, fr) ∈ db →
          read_table db name =
            Except.ok ("SELECT * FROM " ++ quote_identifier name, fr)) := by
  refine ⟨?_, ?_, ?_⟩
  · rintro ⟨ch, hch, hbad⟩
    have hne : name ≠ "" := by
      intro h
      rw [h] at hch
      simp at hch
    have hall : (name.toList.all fun c => isPyWordChar c || isPySpaceChar c) = false :=
      List.all_eq_false.mpr ⟨ch, hch, by simp [hbad]⟩
    unfold read_table validate_sql_identifier
    rw [if_neg hne, hall]
    rfl
  · intro hok hnot
    obtain ⟨heq, -, -⟩ := validate_ok_of_isOk name hok
    have hnone : db.find? (fun t => t.1 == name) = none := by
      refine List.find?_eq_none.mpr fun t ht hbeq => ?_
      exact hnot (List.mem_map.mpr ⟨t, ht, beq_iff_eq.mp hbeq⟩)
    rw [read_table_eq_find db name heq, hnone]
  · intro hok
    obtain ⟨heq, -, hall⟩ := validate_ok_of_isOk name hok
    have hnq : ∀ ch ∈ name.toList, ch ≠ '"' := by
      intro ch hch h
      have hw := hall ch hch
      rw [h] at hw
      exact absurd hw (by decide)
    constructor
    · show '"' :: ((name.toList.flatMap fun ch =>
          if ch = '"' then ['"', '"'] else [ch]) ++ ['"']) = _
      rw [flatMap_quote_of_no_quote name.toList hnq]
    · intro fr hnd hmem
      rw [read_table_eq_find db name heq, find?_fst_nodup name fr db hnd hmem]

/-- Counterexample to C6 as stated: "a\tb" contains a tab, which is outside
letters, digits, underscore, and the space character, yet the validator
accepts it (the regex class `\s` admits any whitespace) and `read_table`
reads the table without any validation error. -/
theorem read_table_tab_counterexample :
    ('\t' ∈ "a\tb".toList ∧
      ¬('\t'.isAlphanum = true ∨ '\t' = '_' ∨ '\t' = ' ')) ∧
    validate_sql_identifier "a\tb" = Except.ok "a\tb" ∧
    read_table [("a\tb", [{ name := "x", values := [] }])] "a\tb" =
      Except.ok ("SELECT * FROM " ++ quote_identifier "a\tb",
        [{ name := "x", values := [] }]) :=
  ⟨by decide, by rfl, by rfl⟩

/-- Witness for C6 at concrete inputs: a present table is read with the
properly quoted query; an absent one yields the not-found error. -/
theorem read_table_spec_witness :
    read_table [("readings", [{ name := "id", values := [Value.num 1] }])]
        "readings" =
      Except.ok ("SELECT * FROM " ++ quote_identifier "readings",
        [{ name := "id", values := [Value.num 1] }]) ∧
    read_table ([] : Database) "missing" = Except.error ReadErr.tableNotFound :=
  ⟨((read_table_spec
        [("readings", [{ name := "id", values := [Value.num 1] }])]
        "readings").2.2 (by decide)).2
      [{ name := "id", values := [Value.num 1] }] (by decide) (by decide),
   (read_table_spec ([] : Database) "missing").2.1 (by decide) (by decide)⟩

/- ===== theorems: C10 ===== -/

theorem foldl_map_comm (chars : List Char) :
    ∀ (c : Char) (cs : List Char),
      chars.foldl (fun b ch => b.map fun x => if x = ch then '_' else x) (c :: cs) =
        (chars.foldl (fun x ch => if x = ch then '_' else x) c) ::
          chars.foldl (fun b ch => b.map fun x => if x = ch then '_' else x) cs := by
  induction chars with
  | nil => intro c cs; rfl
  | cons ch rest ih =>
    intro c cs
    simp only [List.foldl_cons, List.map_cons]
    exact ih _ _

theorem charSan_eq (c : Char) :
    ['<', '>', ':', '"', '|', '?', '*'].foldl
        (fun x ch => if x = ch then '_' else x) c =
      if (['<', '>', ':', '"', '|', '?', '*'].contains c) then '_' else c := by
  simp only [List.foldl_cons, List.foldl_nil]
  by_cases h1 : c = '<'
  · subst h1; decide
  by_cases h2 : c = '>'
  · subst h2; decide
  by_cases h3 : c = ':'
  · subst h3; decide
  by_cases h4 : c = '"'
  · subst h4; decide
  by_cases h5 : c = '|'
  · subst h5; decide
  by_cases h6 : c = '?'
  · subst h6; decide
  by_cases h7 : c = '*'
  · subst h7; decide
  simp [List.contains_eq_any_beq, beq_iff_eq, h1, h2, h3, h4, h5, h6, h7]

theorem sanitizeBase_eq_map (base : List Char) :
    sanitizeBase base =
      base.map fun c =>
        if INVALID_FILENAME_CHARS.toList.contains c then '_' else c := by
  have hinv : INVALID_FILENAME_CHARS.toList = ['<', '>', ':', '"', '|', '?', '*'] := rfl
  unfold sanitizeBase
  rw [hinv]
  induction base with
  | nil => rfl
  | cons c cs ih =>
    rw [foldl_map_comm, ih, List.map_cons, charSan_eq]

/-- C10 (amended). `get_output_path` raises a validation error when either
argument is empty or whitespace-only, and also when the input path's base
name (final component with its extension removed) is empty, as for "/";
otherwise it returns the output directory joined with the base name in
which every occurrence of one of the characters `<` `>` `:` `"` `|` `?` `*`
is replaced by an underscore, followed by the `.xlsx` extension. -/
theorem get_output_path_spec (db_path output_dir : String) :
    (pyStrip db_path = "" →
        (get_output_path db_path output_dir).isOk = false) ∧
    (pyStrip output_dir = "" →
        (get_output_path db_path output_dir).isOk = false) ∧
    (pyStrip output_dir ≠ "" → pathStem (pyStrip db_path) ≠ [] →
        get_output_path db_path output_dir =
          Except.ok (renderPath (pyStrip output_dir)
            ((pathStem (pyStrip db_path)).map
                (fun c => if INVALID_FILENAME_CHARS.toList.contains c then '_' else c)
              ++ ".xlsx".toList))) := by
  refine ⟨?_, ?_, ?_⟩
  · intro h
    unfold get_output_path validate_non_empty_string
    rw [if_pos (Or.inr h)]
    rfl
  · intro h
    unfold get_output_path validate_non_empty_string
    by_cases hdb : db_path = "" ∨ pyStrip db_path = ""
    · rw [if_pos hdb]
      rfl
    · rw [if_neg hdb, if_pos (Or.inr h)]
      rfl
  · intro hout hstem
    have hdbs : pyStrip db_path ≠ "" := by
      intro h
      apply hstem
      rw [h]
      rfl
    have hdb : ¬(db_path = "" ∨ pyStrip db_path = "") := by
      rintro (h | h)
      · exact hdbs (by rw [h]; rfl)
      · exact hdbs h
    have hod : ¬(output_dir = "" ∨ pyStrip output_dir = "") := by
      rintro (h | h)
      · exact hout (by rw [h]; rfl)
      · exact hout h
    unfold get_output_path validate_non_empty_string
    rw [if_neg hdb, if_neg hod]
    simp only [if_neg hstem]
    rw [sanitizeBase_eq_map]
    rfl

/-- Counterexample to C10 as stated: "/" is a non-empty, non-whitespace
database path, but its base name is empty, so `get_output_path` raises
instead of returning a joined output path. -/
theorem get_output_path_root_counterexample :
    ("/" : String) ≠ "" ∧ pyStrip "/" = "/" ∧
    get_output_path "/" "output" = Except.error "Could not extract filename" :=
  ⟨by decide, by rfl, by rfl⟩

/-- Witness for C10: a relative path with a directory, an invalid `:` in
the stem, and a `.db` extension. -/
theorem get_output_path_spec_witness :
    get_output_path "in/da:ta.db" "output" = Except.ok "output/da_ta.xlsx" :=
  ((get_output_path_spec "in/da:ta.db" "output").2.2 (by decide)
      (by decide)).trans (by rfl)

/- ===== theorems: C7 ===== -/

/-- C7. For every environment whose output path's extension (lowercased)
is not `.xlsx`, `convert_db_to_excel` fails with an error having performed
no side effect at all: no output directory is created, no table is listed,
none is read, and no worksheet is written. -/
theorem convert_bad_extension_no_side_effects (env : Env)
    (h : strLower (pathSuffix (pyStrip env.output_path)) ≠ ".xlsx") :
    (convert_db_to_excel env).1 = [] ∧
      ∃ e, (convert_db_to_excel env).2 = Except.error e := by
  unfold convert_db_to_excel
  repeat' split
  all_goals exact ⟨rfl, _, rfl⟩

/-- Witness for C7: an otherwise healthy environment whose output path ends
in `.xls`. -/
theorem convert_bad_extension_no_side_effects_witness :
    strLower (pathSuffix (pyStrip c7Env.output_path)) ≠ ".xlsx" ∧
    (convert_db_to_excel c7Env).1 = [] ∧
    (∃ e, (convert_db_to_excel c7Env).2 = Except.error e) :=
  ⟨by decide, (convert_bad_extension_no_side_effects c7Env (by decide)).1,
   (convert_bad_extension_no_side_effects c7Env (by decide)).2⟩

/-- C9. A table named "my-table" is accepted by the database engine, is
returned by `get_all_tables` (it does not match the system-table pattern),
and is present and readable in the schema; yet its hyphen is outside the
validator's character set, so `read_table` raises a validation error and
`convert_db_to_excel` fails the whole file's conversion. -/
theorem hyphen_table_fails_conversion :
    get_all_tables c9Env.db = ["my-table"] ∧
    ("my-table", [{ name := "a", values := [Value.num 1] }]) ∈ c9Env.db ∧
    ('-' ∈ "my-table".toList ∧ isPyWordChar '-' = false ∧
      isPySpaceChar '-' = false) ∧
    read_table c9Env.db "my-table" =
      Except.error (ReadErr.invalidIdentifier IdentErr.invalidChars) ∧
    (convert_db_to_excel c9Env).2 =
      Except.error (ConvErr.readError
        (ReadErr.invalidIdentifier IdentErr.invalidChars)) :=
  ⟨by rfl, by decide, by decide, by rfl, by rfl⟩

/- ===== theorems: C8 ===== -/

theorem formatCellAt_idem (df : Frame) (r cidx : Nat) (cell : Cell) :
    formatCellAt df r cidx (formatCellAt df r cidx cell) =
      formatCellAt df r cidx cell := by
  unfold formatCellAt
  by_cases hr : r = 0
  · simp [hr]
  · simp only [if_neg hr]
    cases hdf : df[cidx]? with
    | none => rfl
    | some col =>
      cases hb : (isDatetimeCol col && !(col.values.getD (r - 1) Value.null).isNull) with
      | true =>
        simp [hb]
        intro ha hbn
        rw [if_pos ⟨ha, hbn⟩]
      | false =>
        simp [hb]
        intro ha hbn
        rw [if_pos ⟨ha, hbn⟩]

theorem formatCellAt_value (df : Frame) (r cidx : Nat) (cell : Cell) :
    (formatCellAt df r cidx cell).value = cell.value := by
  unfold formatCellAt
  by_cases hr : r = 0
  · simp [hr]
  · simp only [if_neg hr]
    cases df[cidx]? <;> rfl

theorem formatRowCells_idem (df : Frame) (r : Nat) :
    ∀ (row : List Cell) (cidx : Nat),
      formatRowCells df r cidx (formatRowCells df r cidx row) =
        formatRowCells df r cidx row := by
  intro row
  induction row with
  | nil => intro _; rfl
  | cons cell rest ih =>
    intro cidx
    simp only [formatRowCells]
    rw [formatCellAt_idem, ih]

theorem formatRowCells_values (df : Frame) (r : Nat) :
    ∀ (row : List Cell) (cidx : Nat),
      (formatRowCells df r cidx row).map Cell.value = row.map Cell.value := by
  intro row
  induction row with
  | nil => intro _; rfl
  | cons cell rest ih =>
    intro cidx
    simp only [formatRowCells, List.map_cons]
    rw [formatCellAt_value, ih]

theorem formatGrid_idem (df : Frame) :
    ∀ (grid : List (List Cell)) (r : Nat),
      formatGrid df r (formatGrid df r grid) = formatGrid df r grid := by
  intro grid
  induction grid with
  | nil => intro _; rfl
  | cons row rest ih =>
    intro r
    simp only [formatGrid]
    rw [formatRowCells_idem, ih]

theorem formatGrid_values (df : Frame) :
    ∀ (grid : List (List Cell)) (r : Nat),
      (formatGrid df r grid).map (fun row => row.map Cell.value) =
        grid.map fun row => row.map Cell.value := by
  intro grid
  induction grid with
  | nil => intro _; rfl
  | cons row rest ih =>
    intro r
    simp only [formatGrid, List.map_cons]
    rw [formatRowCells_values, ih]

/-- C8. `format_worksheet` is idempotent and purely presentational on a
worksheet whose grid matches its frame (a header row plus one row per frame
row, one cell per column): running it a second time leaves every visual
attribute — cell styles, number formats, column widths, frozen pane, header
row height — exactly as after the first run, with no compounding, and no
run changes any data value of any cell. -/
theorem format_worksheet_idempotent (ws : Worksheet) (df : Frame)
    (_hrows : ws.cells.length = rowCount df + 1)
    (_hcols : ∀ row ∈ ws.cells, row.length = df.length) :
    format_worksheet (format_worksheet ws df) df = format_worksheet ws df ∧
      cellValuesGrid (format_worksheet ws df) = cellValuesGrid ws := by
  constructor
  · unfold format_worksheet
    rw [formatGrid_idem]
  · unfold cellValuesGrid format_worksheet
    exact formatGrid_values df ws.cells 0

/-- Witness for C8 at a concrete one-column worksheet with its matching
frame. -/
theorem format_worksheet_idempotent_witness :
    c8Sheet.cells.length = rowCount c8Frame + 1 ∧
    format_worksheet (format_worksheet c8Sheet c8Frame) c8Frame =
      format_worksheet c8Sheet c8Frame ∧
    cellValuesGrid (format_worksheet c8Sheet c8Frame) = cellValuesGrid c8Sheet :=
  ⟨by decide,
   (format_worksheet_idempotent c8Sheet c8Frame (by decide) (by decide)).1,
   (format_worksheet_idempotent c8Sheet c8Frame (by decide) (by decide)).2⟩

/-- The specification's end-to-end `readings` example, as the code actually
processes it. -/
theorem readingsProcessed_eq :
    processTable readingsFrame readingsLookup =
      [{ name := "Row", values := [Value.num 1, Value.num 2, Value.num 3] },
       { name := "id", values := [Value.num 1, Value.num 2, Value.num 3] },
       { name := "sampled_at",
         values := [Value.num 1600000000, Value.num 1700000000, Value.num 1800000000] },
       { name := "Voltage", values := [Value.num 1, Value.num 2, Value.num 3] }] := by
  unfold processTable
  rw [show rename_data_format_columns readingsFrame readingsLookup =
        renamedReadings from rfl,
    convert_timestamps_eq_flatMap renamedReadings (by decide)]
  rfl

/-- Counterexample to C1 as stated: in the end-to-end `readings` example the
name "sampled_at" contains none of the substrings "time", "timestamp",
"date", so the name gate fails, no `sampled_at_readable` column is derived,
and the header is Row, id, sampled_at, Voltage — not the claimed
Row, id, sampled_at, sampled_at_readable, Voltage. -/
theorem readings_header_counterexample :
    sheetHeader (processTable readingsFrame readingsLookup) =
        ["Row", "id", "sampled_at", "Voltage"] ∧
      ¬ sheetHeader (processTable readingsFrame readingsLookup) =
        ["Row", "id", "sampled_at", "sampled_at_readable", "Voltage"] := by
  have h : sheetHeader (processTable readingsFrame readingsLookup) =
      ["Row", "id", "sampled_at", "Voltage"] := by
    rw [readingsProcessed_eq]
    rfl
  exact ⟨h, by rw [h]; decide⟩

/-- C1 (amended). For every source frame whose renamed columns have
pairwise-distinct names, the worksheet written for it has a data row count
equal to the source row count, and its header is exactly the "Row" column
first, followed by the original (or renamed) columns in source order with
each derived `_readable` column immediately after its source column. In
particular, for the `readings` example with three in-range `sampled_at`
rows and a lookup mapping 0 to "Voltage", the header is
Row, id, sampled_at, Voltage with 3 data rows and sequence numbers 1-3
("sampled_at" has no timestamp keyword, so no `_readable` sibling is
derived). -/
theorem convert_worksheet_spec (df : Frame) (lookup : LookupState)
    (h : (colNames (rename_data_format_columns df lookup)).Nodup) :
    ((sheetRows (processTable df lookup)).length = rowCount df ∧
     sheetHeader (processTable df lookup) =
       "Row" :: (rename_data_format_columns df lookup).flatMap
         (fun c =>
           if is_unix_timestamp_column c then [c.name, c.name ++ "_readable"]
           else [c.name])) ∧
    (sheetHeader (processTable readingsFrame readingsLookup) =
       ["Row", "id", "sampled_at", "Voltage"] ∧
     (sheetRows (processTable readingsFrame readingsLookup)).length = 3 ∧
     (processTable readingsFrame readingsLookup).head? =
       some { name := "Row", values := [Value.num 1, Value.num 2, Value.num 3] }) := by
  refine ⟨⟨?_, ?_⟩, ?_, ?_, ?_⟩
  · unfold sheetRows
    rw [List.length_map, List.length_range, rowCount_processTable]
  · show "Row" :: colNames (convert_timestamps_to_readable
        (rename_data_format_columns df lookup)) = _
    rw [convert_timestamps_eq_flatMap _ h]
    unfold colNames
    rw [List.map_flatMap]
    refine congrArg _ (congrArg _ (funext fun c => ?_))
    unfold expandCol
    by_cases hq : is_unix_timestamp_column c
    · simp [hq, mkReadable, TIMESTAMP_READABLE_SUFFIX]
    · simp [hq]
  · rw [readingsProcessed_eq]
    rfl
  · rw [readingsProcessed_eq]
    rfl
  · rw [readingsProcessed_eq]
    rfl

/-- Witness for C1 at a concrete two-column frame with one qualifying
timestamp column and no renaming. -/
theorem convert_worksheet_spec_witness :
    (sheetRows (processTable
        [{ name := "id", values := [Value.num 7] },
         { name := "created_time", values := [Value.num 1000000000] }]
        LookupState.absent)).length = 1 ∧
    sheetHeader (processTable
        [{ name := "id", values := [Value.num 7] },
         { name := "created_time", values := [Value.num 1000000000] }]
        LookupState.absent) =
      ["Row", "id", "created_time", "created_time_readable"] :=
  ⟨(convert_worksheet_spec
      [{ name := "id", values := [Value.num 7] },
       { name := "created_time", values := [Value.num 1000000000] }]
      LookupState.absent (by decide)).1.1,
   ((convert_worksheet_spec
      [{ name := "id", values := [Value.num 7] },
       { name := "created_time", values := [Value.num 1000000000] }]
      LookupState.absent (by decide)).1.2).trans (by decide)⟩

end SqliteToExcel
